import Mathlib

/-!
Verification of the reddit-post-fetcher repository against its design
specification.

The repository ships a Next.js/TypeScript frontend (`frontend/src/lib/utils.ts`,
the toast state manager, `Home`, `PostCard`) together with a Python backend
described by the README (`reddit_fetcher.py`, `api_server.py`,
`ai_services.py`).  The frontend sources are embedded directly below; the
backend core (ListingCache, RateLimiter, EnrichmentService, FetchOrchestrator)
is not among the provided sources, so it is modelled from the specification,
with each such definition marked `Modelled from the spec:`.

Strings are modelled as lists of characters (`List Char`), timestamps and
durations as natural numbers, and fallible operations as `Except`-valued
functions.  Nondeterministic upstream behaviour (network results, per-item
enrichment outcomes, interleavings) is captured by explicit oracle parameters
and schedules.
-/

namespace RedditFetcher

/-! ## Frontend utilities (`frontend/src/lib/utils.ts`) -/

/-- Function `truncateText` from `frontend/src/lib/utils.ts`:
`if (!text || text.length <= maxLength) return text;
 return text.substring(0, maxLength) + "...";`
A JavaScript string is falsy exactly when it is empty, and
`substring(0, maxLength)` takes the first `maxLength` characters.
Strings are modelled as `List Char`. -/
def truncateText (text : List Char) (maxLength : Nat := 200) : List Char :=
  if text = [] ∨ text.length ≤ maxLength then text
  else text.take maxLength ++ ['.', '.', '.']

/-! ## Toast state manager (frontend toast context) -/

/-- Constant `TOAST_LIMIT = 5` from the toast state manager. -/
def TOAST_LIMIT : Nat := 5

/-- A `ToasterToast`: `ToastProps & { id, title?, description?, action? }`.
The `open` flag (set by `ADD_TOAST`/`DISMISS_TOAST`) is named `isOpen`
because `open` is reserved in Lean; `title` and `description` stand for the
remaining payload fields. -/
structure ToasterToast where
  id : String
  title : Option String
  description : Option String
  isOpen : Bool
  deriving DecidableEq, Repr

/-- The type `Partial ToasterToast`: every field optionally present. -/
structure PartialToast where
  id : Option String
  title : Option String
  description : Option String
  isOpen : Option Bool
  deriving DecidableEq, Repr

/-- The spread `{ ...t, ...p }`: a field present in the partial `p`
overrides the corresponding field of `t`. -/
def mergeToast (t : ToasterToast) (p : PartialToast) : ToasterToast :=
  { id := p.id.getD t.id
    title := match p.title with | some v => some v | none => t.title
    description := match p.description with | some v => some v | none => t.description
    isOpen := p.isOpen.getD t.isOpen }

/-- The toast reducer's `Action` union type.  `DISMISS_TOAST` and
`REMOVE_TOAST` carry an optional `toastId`. -/
inductive ToastAction where
  | addToast (toast : ToasterToast)
  | updateToast (toast : PartialToast) (id : String)
  | dismissToast (toastId : Option String)
  | removeToast (toastId : Option String)
  deriving DecidableEq, Repr

/-- The reducer's `State`: `{ toasts: ToasterToast[] }`. -/
structure ToastState where
  toasts : List ToasterToast
  deriving DecidableEq, Repr

/-- Function `toastReducer` from the toast state manager, case by case:
`ADD_TOAST` prepends and keeps the first `TOAST_LIMIT` toasts;
`UPDATE_TOAST` merges the partial toast into every toast whose id equals
`action.id`; `DISMISS_TOAST` sets `open: false` on the matching toast, or on
every toast when no id is given; `REMOVE_TOAST` filters the matching toast
out, or clears the list when no id is given. -/
def toastReducer (state : ToastState) (action : ToastAction) : ToastState :=
  match action with
  | .addToast toast =>
      { state with toasts := (toast :: state.toasts).take TOAST_LIMIT }
  | .updateToast toast id =>
      { state with toasts :=
          state.toasts.map (fun t => if t.id = id then mergeToast t toast else t) }
  | .dismissToast toastId =>
      match toastId with
      | none =>
          { state with toasts := state.toasts.map (fun t => { t with isOpen := false }) }
      | some tid =>
          { state with toasts :=
              state.toasts.map (fun t => if t.id = tid then { t with isOpen := false } else t) }
  | .removeToast toastId =>
      match toastId with
      | none => { state with toasts := [] }
      | some tid =>
          { state with toasts := state.toasts.filter (fun t => t.id ≠ tid) }

/-! ## Core pipeline data model

Modelled from the spec: the backend core (`reddit_fetcher.py`, `api_server.py`,
`ai_services.py`) is not among the provided sources. -/

/-- Modelled from the spec: an `Item` — one content record with
`id, title, author, score, createdAt, url, isSelfPost, bodyText?,
thumbnailUrl?, commentCount` plus the optional summary (`tldr`) that
EnrichmentService may attach by producing a new copy. -/
structure Item where
  id : String
  title : String
  author : String
  score : Int
  createdUtc : Nat
  url : String
  permalink : String
  isSelf : Bool
  selftext : Option String
  thumbnail : Option String
  numComments : Nat
  tldr : Option String
  deriving DecidableEq, Repr

/-- Modelled from the spec: a `Query` — resource name, item limit and a
filter/sort parameter; immutable; used as the cache key. -/
structure Query where
  resource : String
  limit : Nat
  sort : String
  deriving DecidableEq, Repr

/-- Lower-casing of a string, character by character. -/
def lowerString (s : String) : String :=
  ⟨s.data.map Char.toLower⟩

/-- Modelled from the spec: normalization of a Query — lower-cased resource
name (parameter ordering is canonical by construction in a record type). -/
def normalizeQuery (q : Query) : Query :=
  { q with resource := lowerString q.resource }

/-- Modelled from the spec: a `ListingEntry` — the ordered sequence of
fetched items, a `fetchedAt` timestamp and a `ttl`. -/
structure ListingEntry where
  items : List Item
  fetchedAt : Nat
  ttl : Nat
  deriving DecidableEq, Repr

/-- Modelled from the spec: the error taxonomy of §7 (enrichment failures are
swallowed per item and never become an `ApiError`). -/
inductive ApiError where
  | validation (message : String)
  | rateLimited
  | upstreamUnavailable
  | authFailure
  deriving DecidableEq, Repr

/-! ## ListingCache (modelled from the spec) -/

/-- Modelled from the spec: the state of the ListingCache — the keyed store
of entries, the count of upstream listing calls made so far (the observable
the single-flight and TTL properties are about), and the current time. -/
structure CacheState where
  entries : List (Query × ListingEntry)
  upstreamCalls : Nat
  now : Nat
  deriving DecidableEq, Repr

/-- Lookup of a key in the keyed store. -/
def findEntry (k : Query) : List (Query × ListingEntry) → Option ListingEntry
  | [] => none
  | (k', e) :: rest => if k' = k then some e else findEntry k rest

/-- Store a new entry, overwriting any prior value for the key. -/
def putEntry (k : Query) (e : ListingEntry) (l : List (Query × ListingEntry)) :
    List (Query × ListingEntry) :=
  (k, e) :: l.filter (fun p => p.1 ≠ k)

/-- Modelled from the spec: the fetch arm of `getOrFetch` — issue one
upstream call (counted), and on success store the new ListingEntry with
`fetchedAt = now` and return it; on failure propagate the error (the spec's
default policy). `upstream` abstracts the UpstreamClient listing call. -/
def fetchFresh (upstream : Query → Except ApiError (List Item)) (ttl : Nat)
    (k : Query) (st : CacheState) : Except ApiError ListingEntry × CacheState :=
  let st1 := { st with upstreamCalls := st.upstreamCalls + 1 }
  match upstream k with
  | .ok items =>
      let e : ListingEntry := { items := items, fetchedAt := st.now, ttl := ttl }
      (.ok e, { st1 with entries := putEntry k e st1.entries })
  | .error err => (.error err, st1)

/-- Modelled from the spec: `ListingCache.getOrFetch(query, forceRefresh)`,
sequential (single-caller) semantics; the concurrent single-flight registry
is modelled separately below.  If `forceRefresh` is false and a non-expired
entry exists for the normalized query, return it immediately with no
upstream call; expiry is lazy, checked on read: an entry is expired when its
age `now - fetchedAt` exceeds its `ttl`.  Otherwise fetch. -/
def getOrFetch (upstream : Query → Except ApiError (List Item)) (ttl : Nat)
    (q : Query) (forceRefresh : Bool) (st : CacheState) :
    Except ApiError ListingEntry × CacheState :=
  let k := normalizeQuery q
  match findEntry k st.entries with
  | some e =>
      if forceRefresh = false ∧ st.now - e.fetchedAt ≤ e.ttl then (.ok e, st)
      else fetchFresh upstream ttl k st
  | none => fetchFresh upstream ttl k st

/-! ## EnrichmentService (modelled from the spec) -/

/-- Modelled from the spec: an `EnrichmentEntry` — cached value keyed by item
id: the generated summary text and a `generatedAt` timestamp. -/
structure EnrichmentEntry where
  summary : String
  generatedAt : Nat
  deriving DecidableEq, Repr

/-- Modelled from the spec: the state of the EnrichmentService — its
short-lived per-item cache keyed by item id, the count of summarization
calls made so far, and the current time. -/
structure EnrichState where
  entries : List (String × EnrichmentEntry)
  summarizeCalls : Nat
  now : Nat
  deriving DecidableEq, Repr

/-- Lookup of an item id in the enrichment cache. -/
def findSummary (k : String) : List (String × EnrichmentEntry) → Option EnrichmentEntry
  | [] => none
  | (k', e) :: rest => if k' = k then some e else findSummary k rest

/-- Attach a summary to an item by producing a new copy (the item itself is
immutable). -/
def attachSummary (it : Item) (s : String) : Item :=
  { it with tldr := some s }

/-- Modelled from the spec: `EnrichmentService.enrich(item)`.  If an
EnrichmentEntry exists for the item's id, attach it and return without any
call.  Otherwise call the summarization operation (counted; its argument is
the title and the body text, the title standing in when there is no body, as
the frontend caller does): on success cache and attach; on failure return
the original item unmodified — the failure is recorded, not raised.
`summarize` abstracts the summarization operation (title and body to summary
or failure); per-call deadline expiry is one of its failure outcomes. -/
def enrich (summarize : String → String → Except Unit String) (it : Item)
    (st : EnrichState) : Item × EnrichState :=
  match findSummary it.id st.entries with
  | some e => (attachSummary it e.summary, st)
  | none =>
      let st1 := { st with summarizeCalls := st.summarizeCalls + 1 }
      match summarize it.title (it.selftext.getD it.title) with
      | .ok s =>
          (attachSummary it s,
           { st1 with entries := (it.id, ⟨s, st.now⟩) :: st1.entries })
      | .error _ => (it, st1)

/-- Modelled from the spec: the sequential body of `enrichAll` over the
items, indexed.  `completed idx` says whether item `idx`'s enrichment call
completes before the overall deadline under the concurrency-bounded
schedule; an item whose call is still pending at the deadline is returned
unenriched (not dropped). -/
def enrichGo (summarize : String → String → Except Unit String)
    (completed : Nat → Bool) :
    List Item → Nat → EnrichState → List Item × EnrichState
  | [], _, st => ([], st)
  | it :: rest, idx, st =>
      if completed idx then
        let p := enrich summarize it st
        let q := enrichGo summarize completed rest (idx + 1) p.2
        (p.1 :: q.1, q.2)
      else
        let q := enrichGo summarize completed rest (idx + 1) st
        (it :: q.1, q.2)

/-- Modelled from the spec:
`enrichAll(items, maxConcurrency, overallDeadline)` — fan-out bounded by
`maxConcurrency`, returning when all items complete or `overallDeadline`
elapses, at which point still-pending items are returned unenriched.
`completes maxConcurrency overallDeadline idx` abstracts the
nondeterministic scheduling outcome for item `idx` under those bounds; the
output order is the input order regardless of completion order. -/
def enrichAll (summarize : String → String → Except Unit String)
    (completes : Nat → Nat → Nat → Bool) (items : List Item)
    (maxConcurrency overallDeadline : Nat) (st : EnrichState) :
    List Item × EnrichState :=
  enrichGo summarize (completes maxConcurrency overallDeadline) items 0 st

/-! ## FetchOrchestrator (modelled from the spec) -/

/-- Modelled from the spec: the whole-pipeline state the orchestrator
threads: the listing cache and the enrichment cache. -/
structure SystemState where
  cache : CacheState
  enrichment : EnrichState
  deriving DecidableEq, Repr

/-- Modelled from the spec: the orchestrator's configuration — listing TTL,
enrichment fan-out bound and overall enrichment deadline. -/
structure FetchConfig where
  ttl : Nat
  maxConcurrency : Nat
  overallDeadline : Nat
  deriving DecidableEq, Repr

/-- Modelled from the spec:
`FetchOrchestrator.getPosts(resource, limit, forceRefresh, withEnrichment)`.
Validate `limit` against the allowed range 1 to 25 (reject out-of-range with
a validation error, no partial execution); call `getOrFetch` with the
normalized query and propagate its errors as-is; then return the items,
running them through `enrichAll` first when enrichment was requested. -/
def getPosts (upstream : Query → Except ApiError (List Item))
    (summarize : String → String → Except Unit String)
    (completes : Nat → Nat → Nat → Bool) (cfg : FetchConfig)
    (resource : String) (limit : Nat) (forceRefresh withEnrichment : Bool)
    (st : SystemState) : Except ApiError (List Item) × SystemState :=
  if limit < 1 ∨ 25 < limit then
    (.error (.validation "limit must be between 1 and 25"), st)
  else
    let q : Query := { resource := resource, limit := limit, sort := "hot" }
    match getOrFetch upstream cfg.ttl q forceRefresh st.cache with
    | (.error e, c') => (.error e, { st with cache := c' })
    | (.ok entry, c') =>
        if withEnrichment then
          let p := enrichAll summarize completes entry.items
            cfg.maxConcurrency cfg.overallDeadline st.enrichment
          (.ok p.1, { cache := c', enrichment := p.2 })
        else
          (.ok entry.items, { st with cache := c' })

/-! ## RateLimiter (modelled from the spec) -/

/-- Modelled from the spec: the failure mode of `reserve`. -/
inductive RateError where
  | rateLimited
  deriving DecidableEq, Repr

/-- Modelled from the spec: the `RateBudget` — remaining calls and the epoch
at which the budget resets, updated from upstream response metadata. -/
structure RateBudget where
  remaining : Nat
  resetAt : Nat
  deriving DecidableEq, Repr

/-- Modelled from the spec: `RateLimiter.update(remaining, resetAt)` —
replace the tracked budget by what the upstream response reported. -/
def RateLimiter.update (remaining resetAt : Nat) (_ : RateBudget) : RateBudget :=
  { remaining := remaining, resetAt := resetAt }

/-- Modelled from the spec: `RateLimiter.reserve(costUnits=1)` at time `now`.
With budget left, grant immediately and decrement.  With the budget
exhausted: if the reset epoch has passed, refill to the full window budget
and take one; if not, wait until `resetAt` (a full refill then) provided the
wait fits in the configured maximum `maxWait`, otherwise fail with
RateLimited rather than blocking indefinitely.  Returns the grant time and
the new budget. -/
def RateLimiter.reserve (fullBudget maxWait : Nat) (now : Nat) (b : RateBudget) :
    Except RateError (Nat × RateBudget) :=
  if 0 < b.remaining then .ok (now, { b with remaining := b.remaining - 1 })
  else if b.resetAt ≤ now then .ok (now, { b with remaining := fullBudget - 1 })
  else if b.resetAt - now ≤ maxWait then
    .ok (b.resetAt, { b with remaining := fullBudget - 1 })
  else .error .rateLimited

/-- One reserve request: when the caller arrives and how long it is willing
to wait. -/
structure ReserveReq where
  arrival : Nat
  maxWait : Nat
  deriving DecidableEq, Repr

/-- Modelled from the spec: a sequence of reserve calls against the tracked
budget, counting the grants that happen strictly before the `cutoff` epoch
(the reset time of the window under scrutiny).  Callers serialize their
budget checks, so real time is monotone across the sequence: each call is
issued at the later of its own arrival and the previous grant time `t`.  A
failed reserve grants nothing and leaves the budget unchanged. -/
def reserveRun (fullBudget cutoff : Nat) :
    List ReserveReq → RateBudget → Nat → Nat
  | [], _, _ => 0
  | r :: rest, b, t =>
      let now := max r.arrival t
      match RateLimiter.reserve fullBudget r.maxWait now b with
      | .ok (g, b') =>
          (if g < cutoff then 1 else 0) + reserveRun fullBudget cutoff rest b' g
      | .error _ => reserveRun fullBudget cutoff rest b t

/-! ## Single-flight coalescing (modelled from the spec) -/

namespace SingleFlight

/-- Modelled from the spec: the program counter of one caller running
`getOrFetch(Q, false)` through the future/promise registry.  `start`: about
to do the atomic check of cache and registry; `fetching`: registered as the
flight owner, performing the upstream call; `publishing r`: call returned
`r`, about to complete the flight; `waiting`: attached to an existing
flight; `done r`: returned `r` to its caller. -/
inductive Phase (R : Type) where
  | start
  | fetching
  | publishing (r : R)
  | waiting
  | done (r : R)
  deriving DecidableEq, Repr

/-- Modelled from the spec: the shared state for one normalized Query — the
in-flight registry bit, the flight's published result, the success-value
cache, and the count of upstream calls. -/
structure Shared (R : Type) where
  inflight : Bool
  flightResult : Option R
  cache : Option R
  upstreamCalls : Nat
  deriving DecidableEq, Repr

/-- A configuration of two concurrent callers over the shared state. -/
structure Config (R : Type) where
  p0 : Phase R
  p1 : Phase R
  sh : Shared R
  deriving DecidableEq, Repr

/-- Modelled from the spec: one atomic step of a caller.  From `start`, the
cache check and the in-flight check-and-set happen in one critical section:
a cached value is returned at once; else if a flight is registered the
caller attaches, otherwise it registers itself.  The upstream call itself
(`fetching`, counted) runs outside the lock and yields `upstreamR`, the
upstream response for the query.  Completing the flight (`publishing`)
stores the value in the cache, publishes it to waiters and removes the
registry entry in one step.  A `waiting` caller returns once the flight
result is published. -/
def stepCaller (upstreamR : R) (p : Phase R) (sh : Shared R) : Phase R × Shared R :=
  match p with
  | .start =>
      match sh.cache with
      | some r => (.done r, sh)
      | none =>
          if sh.inflight then (.waiting, sh)
          else (.fetching, { sh with inflight := true })
  | .fetching =>
      (.publishing upstreamR, { sh with upstreamCalls := sh.upstreamCalls + 1 })
  | .publishing r =>
      (.done r, { sh with flightResult := some r, cache := some r, inflight := false })
  | .waiting =>
      match sh.flightResult with
      | some r => (.done r, sh)
      | none => (.waiting, sh)
  | .done r => (.done r, sh)

/-- One step of the interleaved system: the scheduled caller (`true` for
caller 0) takes its atomic step. -/
def step (upstreamR : R) (i : Bool) (c : Config R) : Config R :=
  if i then
    let (p, sh) := stepCaller upstreamR c.p0 c.sh
    { c with p0 := p, sh := sh }
  else
    let (p, sh) := stepCaller upstreamR c.p1 c.sh
    { c with p1 := p, sh := sh }

/-- Run the two callers under an arbitrary schedule. -/
def run (upstreamR : R) (sched : List Bool) (c : Config R) : Config R :=
  sched.foldl (fun c i => step upstreamR i c) c

/-- The initial configuration of the claim: both callers invoke
`getOrFetch(Q, false)` when no cache entry exists and no flight is
registered. -/
def init (R : Type) : Config R :=
  { p0 := .start, p1 := .start
    sh := { inflight := false, flightResult := none, cache := none, upstreamCalls := 0 } }

/-- A caller holds the flight (is between registering and completing it). -/
def activeB : Phase R → Bool
  | .fetching => true
  | .publishing _ => true
  | _ => false

/-- Number of callers of this phase that have made their upstream call but
not yet completed the flight. -/
def pubCount : Phase R → Nat
  | .publishing _ => 1
  | _ => 0

/-- Number of completed flights recorded in the cache. -/
def cacheBit : Option R → Nat
  | none => 0
  | some _ => 1

/-- Any result a caller carries is the upstream response. -/
def resOk (r0 : R) : Phase R → Prop
  | .publishing r => r = r0
  | .done r => r = r0
  | _ => True

/-- A finished caller implies a completed flight (cache filled). -/
def doneCache (p : Phase R) (cache : Option R) : Prop :=
  match p with
  | .done _ => cache ≠ none
  | _ => True

/-- The inductive invariant of the two-caller single-flight machine. -/
def Inv (r0 : R) (c : Config R) : Prop :=
  resOk r0 c.p0 ∧ resOk r0 c.p1 ∧
  doneCache c.p0 c.sh.cache ∧ doneCache c.p1 c.sh.cache ∧
  (c.sh.cache = none ∨ c.sh.cache = some r0) ∧
  (c.sh.flightResult = none ∨ (c.sh.flightResult = some r0 ∧ c.sh.cache = some r0)) ∧
  c.sh.inflight = (activeB c.p0 || activeB c.p1) ∧
  ¬(activeB c.p0 = true ∧ activeB c.p1 = true) ∧
  (c.sh.cache ≠ none → activeB c.p0 = false ∧ activeB c.p1 = false) ∧
  c.sh.upstreamCalls = pubCount c.p0 + pubCount c.p1 + cacheBit c.sh.cache

/-- The invariant holds initially. -/
theorem inv_init (R : Type) (r0 : R) : Inv r0 (init R) := by
  simp [Inv, init, resOk, doneCache, activeB, pubCount, cacheBit]

/-- The invariant is preserved by every step of either caller. -/
theorem inv_step (r0 : R) (i : Bool) (c : Config R) (h : Inv r0 c) :
    Inv r0 (step r0 i c) := by
  obtain ⟨p0, p1, inflight, flightResult, cache, calls⟩ := c
  cases i <;> cases p0 <;> cases p1 <;>
    rcases cache with _ | rc <;> cases inflight <;> rcases flightResult with _ | rf <;>
    simp_all [Inv, step, stepCaller, resOk, doneCache, activeB, pubCount, cacheBit]

/-- The invariant holds after running any schedule from the initial
configuration. -/
theorem inv_run (R : Type) (r0 : R) (sched : List Bool) :
    Inv r0 (run r0 sched (init R)) := by
  suffices h : ∀ c : Config R, Inv r0 c → Inv r0 (run r0 sched c) from
    h _ (inv_init R r0)
  induction sched with
  | nil => exact fun c h => h
  | cons i rest ih =>
      intro c h
      have : run r0 (i :: rest) c = run r0 rest (step r0 i c) := rfl
      rw [this]
      exact ih _ (inv_step r0 i c h)

end SingleFlight

/-! ## Helper lemmas -/

/-- An enrichment result is the input item, possibly with a summary
attached. -/
def enrichedFrom (a b : Item) : Prop :=
  b = a ∨ ∃ s, b = attachSummary a s

/-- The first component of `enrich` is the item, enriched or unchanged. -/
theorem enrich_fst (summarize : String → String → Except Unit String) (it : Item)
    (st : EnrichState) : enrichedFrom it (enrich summarize it st).1 := by
  cases h : findSummary it.id st.entries with
  | some e => exact Or.inr ⟨e.summary, by simp [enrich, h]⟩
  | none =>
      cases hs : summarize it.title (it.selftext.getD it.title) with
      | error u => exact Or.inl (by simp [enrich, h, hs])
      | ok s => exact Or.inr ⟨s, by simp [enrich, h, hs]⟩

/-- Item-wise: `enrichGo` outputs each input item in place, enriched or
unchanged. -/
theorem enrichGo_forall₂ (summarize : String → String → Except Unit String)
    (completed : Nat → Bool) :
    ∀ (items : List Item) (idx : Nat) (st : EnrichState),
      List.Forall₂ enrichedFrom items (enrichGo summarize completed items idx st).1 := by
  intro items
  induction items with
  | nil => intro idx st; simp [enrichGo]
  | cons it rest ih =>
      intro idx st
      by_cases h : completed idx
      · simpa [enrichGo, h] using
          List.Forall₂.cons (enrich_fst summarize it st) (ih (idx + 1) _)
      · simpa [enrichGo, h] using
          List.Forall₂.cons (show enrichedFrom it it from Or.inl rfl) (ih (idx + 1) st)

/-- Length preservation for `enrichGo`. -/
theorem enrichGo_length (summarize : String → String → Except Unit String)
    (completed : Nat → Bool) (items : List Item) (idx : Nat) (st : EnrichState) :
    (enrichGo summarize completed items idx st).1.length = items.length :=
  (enrichGo_forall₂ summarize completed items idx st).length_eq.symm

/-! ## Claim theorems -/

/-- C1: for every normalized Query, at most one upstream listing call is in
flight at a time: under every interleaving of two callers that invoke
`getOrFetch(Q, false)` concurrently when no cache entry exists, if both
callers finish then exactly one upstream call was made and both callers
received its result. -/
theorem single_flight_two_callers (R : Type) (r0 : R) (sched : List Bool)
    (ra rb : R)
    (h0 : (SingleFlight.run r0 sched (SingleFlight.init R)).p0 = .done ra)
    (h1 : (SingleFlight.run r0 sched (SingleFlight.init R)).p1 = .done rb) :
    (SingleFlight.run r0 sched (SingleFlight.init R)).sh.upstreamCalls = 1 ∧
    ra = r0 ∧ rb = r0 := by
  have hinv := SingleFlight.inv_run R r0 sched
  obtain ⟨hr0, hr1, hd0, hd1, hc, hf, hi, hx, hq, hn⟩ := hinv
  rw [h0] at hr0 hd0
  rw [h1] at hr1 hd1
  simp [SingleFlight.resOk] at hr0 hr1
  simp [SingleFlight.doneCache] at hd0
  have hcache : (SingleFlight.run r0 sched (SingleFlight.init R)).sh.cache = some r0 := by
    rcases hc with hnone | hsome
    · exact absurd hnone hd0
    · exact hsome
  refine ⟨?_, hr0, hr1⟩
  rw [h0, h1, hcache] at hn
  simpa [SingleFlight.pubCount, SingleFlight.cacheBit] using hn

/-- Witness for C1: the schedule where caller 0 runs to completion and then
caller 1 reads the cached value — one upstream call, both results equal the
upstream response. -/
theorem single_flight_two_callers_witness :
    ((SingleFlight.run (42 : Nat) [true, true, true, false]
        (SingleFlight.init Nat)).p0 = .done 42) ∧
    ((SingleFlight.run (42 : Nat) [true, true, true, false]
        (SingleFlight.init Nat)).p1 = .done 42) ∧
    ((SingleFlight.run (42 : Nat) [true, true, true, false]
        (SingleFlight.init Nat)).sh.upstreamCalls = 1 ∧ (42 : Nat) = 42 ∧ (42 : Nat) = 42) :=
  ⟨by decide, by decide,
   single_flight_two_callers Nat 42 [true, true, true, false] 42 42 (by decide) (by decide)⟩

/-! ### Sample data for witnesses -/

/-- A concrete item for witness instantiations. -/
def sampleItem : Item :=
  { id := "p1", title := "Title", author := "alice", score := 1, createdUtc := 0,
    url := "u", permalink := "l", isSelf := true, selftext := none,
    thumbnail := none, numComments := 0, tldr := none }

/-- A concrete cached listing entry (fetched at 0, ttl 10). -/
def demoEntry : ListingEntry := { items := [sampleItem], fetchedAt := 0, ttl := 10 }

/-- The normalized key of `demoQuery`. -/
def demoKey : Query := { resource := "golang", limit := 5, sort := "hot" }

/-- A concrete query whose resource name normalizes to `demoKey`. -/
def demoQuery : Query := { resource := "Golang", limit := 5, sort := "hot" }

/-- A cache state where `demoEntry` is still fresh (now = 5). -/
def demoCacheFresh : CacheState :=
  { entries := [(demoKey, demoEntry)], upstreamCalls := 0, now := 5 }

/-- A cache state where `demoEntry` has expired (now = 20 > fetchedAt + ttl). -/
def demoCacheExpired : CacheState :=
  { entries := [(demoKey, demoEntry)], upstreamCalls := 0, now := 20 }

/-- A concrete upstream oracle that always answers with one item. -/
def demoUpstream : Query → Except ApiError (List Item) := fun _ => .ok [sampleItem]

/-- C2: when a non-expired entry exists for the normalized query,
`getOrFetch(Q, false)` returns it with no upstream call (the state, hence
the upstream-call count, is unchanged); once the entry's TTL has elapsed,
the next `getOrFetch(Q, false)` makes exactly one new upstream call. -/
theorem getOrFetch_ttl (upstream : Query → Except ApiError (List Item)) (ttl : Nat)
    (q : Query) (st : CacheState) (e : ListingEntry)
    (he : findEntry (normalizeQuery q) st.entries = some e) :
    (st.now - e.fetchedAt ≤ e.ttl → getOrFetch upstream ttl q false st = (.ok e, st)) ∧
    (e.ttl < st.now - e.fetchedAt →
      (getOrFetch upstream ttl q false st).2.upstreamCalls = st.upstreamCalls + 1) := by
  constructor
  · intro hfresh
    simp [getOrFetch, he, hfresh]
  · intro hexp
    have hnot : ¬ st.now - e.fetchedAt ≤ e.ttl := by omega
    cases hu : upstream (normalizeQuery q) with
    | ok items => simp [getOrFetch, he, hnot, fetchFresh, hu]
    | error err => simp [getOrFetch, he, hnot, fetchFresh, hu]

/-- Witness for C2: a fresh hit at time 5 is served from the cache
unchanged; at time 20 the expired entry triggers exactly one new call. -/
theorem getOrFetch_ttl_witness :
    (getOrFetch demoUpstream 10 demoQuery false demoCacheFresh = (.ok demoEntry, demoCacheFresh)) ∧
    ((getOrFetch demoUpstream 10 demoQuery false demoCacheExpired).2.upstreamCalls =
      demoCacheExpired.upstreamCalls + 1) :=
  ⟨(getOrFetch_ttl demoUpstream 10 demoQuery demoCacheFresh demoEntry (by decide)).1 (by decide),
   (getOrFetch_ttl demoUpstream 10 demoQuery demoCacheExpired demoEntry (by decide)).2 (by decide)⟩

/-- C3: for every input sequence, every maxConcurrency and every deadline,
`enrichAll` returns a sequence of the same length whose items appear in the
input order, each item either enriched with a summary or returned
unchanged, for every outcome (`summarize`, `completes`) of the underlying
concurrent calls. -/
theorem enrichAll_length_and_order
    (summarize : String → String → Except Unit String)
    (completes : Nat → Nat → Nat → Bool) (items : List Item)
    (maxConcurrency overallDeadline : Nat) (st : EnrichState) :
    (enrichAll summarize completes items maxConcurrency overallDeadline st).1.length
      = items.length ∧
    ∀ (j : Nat) (hj : j < items.length)
      (hj' : j < (enrichAll summarize completes items maxConcurrency overallDeadline st).1.length),
      (enrichAll summarize completes items maxConcurrency overallDeadline st).1.get ⟨j, hj'⟩
          = items.get ⟨j, hj⟩ ∨
      ∃ s, (enrichAll summarize completes items maxConcurrency overallDeadline st).1.get ⟨j, hj'⟩
          = attachSummary (items.get ⟨j, hj⟩) s := by
  have h := enrichGo_forall₂ summarize (completes maxConcurrency overallDeadline) items 0 st
  rw [List.forall₂_iff_get] at h
  refine ⟨by simpa [enrichAll] using h.1.symm, fun j hj hj' => ?_⟩
  have := h.2 j hj (by simpa [enrichAll] using hj')
  simpa [enrichAll, enrichedFrom] using this

/-- Witness for C3: a one-item batch under an always-failing summarizer
still returns the one item, in place and unchanged. -/
theorem enrichAll_length_and_order_witness :
    ((enrichAll (fun _ _ => .error ()) (fun _ _ _ => true) [sampleItem] 2 100
        { entries := [], summarizeCalls := 0, now := 0 }).1.length = 1) ∧
    ((enrichAll (fun _ _ => .error ()) (fun _ _ _ => true) [sampleItem] 2 100
        { entries := [], summarizeCalls := 0, now := 0 }).1.get ⟨0, by decide⟩
        = [sampleItem].get ⟨0, by decide⟩ ∨
      ∃ s, (enrichAll (fun _ _ => .error ()) (fun _ _ _ => true) [sampleItem] 2 100
        { entries := [], summarizeCalls := 0, now := 0 }).1.get ⟨0, by decide⟩
        = attachSummary ([sampleItem].get ⟨0, by decide⟩) s) :=
  have h := enrichAll_length_and_order (fun _ _ => .error ()) (fun _ _ _ => true)
    [sampleItem] 2 100 { entries := [], summarizeCalls := 0, now := 0 }
  ⟨h.1, h.2 0 (by decide) (by decide)⟩

/-- C4: a failing per-item enrichment call (no cached summary, summarizer
errors) leaves the item unmodified, and no enrichment outcome can make the
batch or the listing response fail: whenever the listing path succeeds,
`getPosts` with enrichment returns a full-length item list for every
summarizer. -/
theorem enrich_failure_isolated :
    (∀ (summarize : String → String → Except Unit String) (it : Item) (st : EnrichState),
      findSummary it.id st.entries = none →
      summarize it.title (it.selftext.getD it.title) = .error () →
      (enrich summarize it st).1 = it) ∧
    (∀ (upstream : Query → Except ApiError (List Item))
      (summarize : String → String → Except Unit String)
      (completes : Nat → Nat → Nat → Bool) (cfg : FetchConfig)
      (resource : String) (limit : Nat) (forceRefresh : Bool) (st : SystemState)
      (entry : ListingEntry) (c' : CacheState),
      ¬(limit < 1 ∨ 25 < limit) →
      getOrFetch upstream cfg.ttl { resource := resource, limit := limit, sort := "hot" }
          forceRefresh st.cache = (.ok entry, c') →
      ∃ items,
        (getPosts upstream summarize completes cfg resource limit forceRefresh true st).1
          = .ok items ∧ items.length = entry.items.length) := by
  constructor
  · intro summarize it st hmiss hfail
    simp [enrich, hmiss, hfail]
  · intro upstream summarize completes cfg resource limit forceRefresh st entry c' hl hfetch
    have hl' : ¬(limit = 0 ∨ 25 < limit) := by omega
    refine ⟨(enrichAll summarize completes entry.items cfg.maxConcurrency
      cfg.overallDeadline st.enrichment).1, ?_, ?_⟩
    · simp [getPosts, hl, hl', hfetch]
    · exact enrichGo_length summarize _ entry.items 0 st.enrichment

/-- Witness for C4: a summarizer that always fails leaves `sampleItem`
unchanged, and `getPosts` with enrichment still returns a full one-item
list from a fresh cache hit. -/
theorem enrich_failure_isolated_witness :
    ((enrich (fun _ _ => .error ()) sampleItem
        { entries := [], summarizeCalls := 0, now := 0 }).1 = sampleItem) ∧
    (∃ items,
      (getPosts demoUpstream (fun _ _ => .error ()) (fun _ _ _ => true)
          { ttl := 10, maxConcurrency := 2, overallDeadline := 100 }
          "Golang" 5 false true
          { cache := demoCacheFresh,
            enrichment := { entries := [], summarizeCalls := 0, now := 0 } }).1
        = .ok items ∧ items.length = demoEntry.items.length) :=
  ⟨enrich_failure_isolated.1 (fun _ _ => .error ()) sampleItem
      { entries := [], summarizeCalls := 0, now := 0 } (by decide) rfl,
   enrich_failure_isolated.2 demoUpstream (fun _ _ => .error ()) (fun _ _ _ => true)
      { ttl := 10, maxConcurrency := 2, overallDeadline := 100 }
      "Golang" 5 false
      { cache := demoCacheFresh,
        enrichment := { entries := [], summarizeCalls := 0, now := 0 } }
      demoEntry demoCacheFresh (by decide) rfl⟩

/-- C5: enrichment is idempotent per item id: a first `enrich` that
summarizes successfully makes exactly one summarization call and caches the
summary; a second `enrich` on any item with the same id returns the cached
summary and changes nothing (no new call, under any summarizer); and an
EnrichmentEntry, once written, is never overwritten by any later `enrich`. -/
theorem enrich_idempotent_per_id
    (summarize summarize2 : String → String → Except Unit String)
    (it it2 : Item) (st : EnrichState) (s : String)
    (hmiss : findSummary it.id st.entries = none)
    (hok : summarize it.title (it.selftext.getD it.title) = .ok s)
    (hid : it2.id = it.id) :
    (enrich summarize it st).1 = attachSummary it s ∧
    (enrich summarize it st).2.summarizeCalls = st.summarizeCalls + 1 ∧
    enrich summarize2 it2 (enrich summarize it st).2 =
      (attachSummary it2 s, (enrich summarize it st).2) ∧
    (∀ (summarize3 : String → String → Except Unit String) (it3 : Item)
      (st3 : EnrichState) (k : String) (e : EnrichmentEntry),
      findSummary k st3.entries = some e →
      findSummary k (enrich summarize3 it3 st3).2.entries = some e) := by
  refine ⟨by simp [enrich, hmiss, hok], by simp [enrich, hmiss, hok], ?_, ?_⟩
  · simp [enrich, hmiss, hok, findSummary, hid]
  · intro summarize3 it3 st3 k e hk
    cases h3 : findSummary it3.id st3.entries with
    | some e3 => simpa [enrich, h3] using hk
    | none =>
        cases hs3 : summarize3 it3.title (it3.selftext.getD it3.title) with
        | error u => simpa [enrich, h3, hs3] using hk
        | ok s3 =>
            have hne : it3.id ≠ k := by
              intro hkk
              rw [hkk, hk] at h3
              cases h3
            simp [enrich, h3, hs3, findSummary, hne, hk]

/-- Witness for C5: enriching `sampleItem` once with a succeeding
summarizer, then again (with an always-failing summarizer) returns the
cached summary with no further call or cache change. -/
theorem enrich_idempotent_per_id_witness :
    ((enrich (fun _ _ => .ok "tldr") sampleItem
        { entries := [], summarizeCalls := 0, now := 0 }).1
      = attachSummary sampleItem "tldr") ∧
    ((enrich (fun _ _ => .ok "tldr") sampleItem
        { entries := [], summarizeCalls := 0, now := 0 }).2.summarizeCalls = 0 + 1) ∧
    (enrich (fun _ _ => .error ()) sampleItem
        (enrich (fun _ _ => .ok "tldr") sampleItem
          { entries := [], summarizeCalls := 0, now := 0 }).2 =
      (attachSummary sampleItem "tldr",
       (enrich (fun _ _ => .ok "tldr") sampleItem
          { entries := [], summarizeCalls := 0, now := 0 }).2)) :=
  have h := enrich_idempotent_per_id (fun _ _ => .ok "tldr") (fun _ _ => .error ())
    sampleItem sampleItem { entries := [], summarizeCalls := 0, now := 0 } "tldr"
    (by decide) rfl rfl
  ⟨h.1, h.2.1, h.2.2.1⟩

/-- C6: a call to `getPosts` with a limit outside 1 to 25 yields a
ValidationError and makes zero upstream calls; the whole pipeline state is
untouched (no partial execution). -/
theorem getPosts_limit_validation (upstream : Query → Except ApiError (List Item))
    (summarize : String → String → Except Unit String)
    (completes : Nat → Nat → Nat → Bool) (cfg : FetchConfig)
    (resource : String) (limit : Nat) (forceRefresh withEnrichment : Bool)
    (st : SystemState) (h : limit < 1 ∨ 25 < limit) :
    (∃ msg,
      (getPosts upstream summarize completes cfg resource limit forceRefresh
        withEnrichment st).1 = .error (.validation msg)) ∧
    (getPosts upstream summarize completes cfg resource limit forceRefresh
      withEnrichment st).2 = st ∧
    (getPosts upstream summarize completes cfg resource limit forceRefresh
      withEnrichment st).2.cache.upstreamCalls = st.cache.upstreamCalls := by
  have h' : limit = 0 ∨ 25 < limit := by omega
  refine ⟨⟨"limit must be between 1 and 25", ?_⟩, ?_, ?_⟩ <;> simp [getPosts, h, h']

/-- Witness for C6: both `limit = 0` and `limit = 100` are rejected with a
ValidationError and leave the state (hence the upstream-call count)
unchanged. -/
theorem getPosts_limit_validation_witness :
    ((∃ msg,
      (getPosts demoUpstream (fun _ _ => .error ()) (fun _ _ _ => true)
        { ttl := 10, maxConcurrency := 2, overallDeadline := 100 }
        "golang" 0 false false
        { cache := demoCacheFresh,
          enrichment := { entries := [], summarizeCalls := 0, now := 0 } }).1
        = .error (.validation msg)) ∧
      (getPosts demoUpstream (fun _ _ => .error ()) (fun _ _ _ => true)
        { ttl := 10, maxConcurrency := 2, overallDeadline := 100 }
        "golang" 0 false false
        { cache := demoCacheFresh,
          enrichment := { entries := [], summarizeCalls := 0, now := 0 } }).2
        = { cache := demoCacheFresh,
            enrichment := { entries := [], summarizeCalls := 0, now := 0 } } ∧
      (getPosts demoUpstream (fun _ _ => .error ()) (fun _ _ _ => true)
        { ttl := 10, maxConcurrency := 2, overallDeadline := 100 }
        "golang" 0 false false
        { cache := demoCacheFresh,
          enrichment := { entries := [], summarizeCalls := 0, now := 0 } }).2.cache.upstreamCalls
        = demoCacheFresh.upstreamCalls) ∧
    (∃ msg,
      (getPosts demoUpstream (fun _ _ => .error ()) (fun _ _ _ => true)
        { ttl := 10, maxConcurrency := 2, overallDeadline := 100 }
        "golang" 100 false false
        { cache := demoCacheFresh,
          enrichment := { entries := [], summarizeCalls := 0, now := 0 } }).1
        = .error (.validation msg)) :=
  ⟨getPosts_limit_validation demoUpstream (fun _ _ => .error ()) (fun _ _ _ => true)
      { ttl := 10, maxConcurrency := 2, overallDeadline := 100 } "golang" 0 false false
      { cache := demoCacheFresh,
        enrichment := { entries := [], summarizeCalls := 0, now := 0 } }
      (Or.inl (by decide)),
   (getPosts_limit_validation demoUpstream (fun _ _ => .error ()) (fun _ _ _ => true)
      { ttl := 10, maxConcurrency := 2, overallDeadline := 100 } "golang" 100 false false
      { cache := demoCacheFresh,
        enrichment := { entries := [], summarizeCalls := 0, now := 0 } }
      (Or.inr (by decide))).1⟩

/-- C8: for an in-range limit, `getPosts` either propagates the listing
error as the single structured error of the whole request, or returns the
full item list of the listing entry: same length, items in place, each at
most enriched — never a partial or truncated list. -/
theorem getPosts_full_list_or_error (upstream : Query → Except ApiError (List Item))
    (summarize : String → String → Except Unit String)
    (completes : Nat → Nat → Nat → Bool) (cfg : FetchConfig)
    (resource : String) (limit : Nat) (forceRefresh withEnrichment : Bool)
    (st : SystemState) (hl : ¬(limit < 1 ∨ 25 < limit)) :
    (∀ err c',
      getOrFetch upstream cfg.ttl { resource := resource, limit := limit, sort := "hot" }
          forceRefresh st.cache = (.error err, c') →
      (getPosts upstream summarize completes cfg resource limit forceRefresh
        withEnrichment st).1 = .error err) ∧
    (∀ entry c',
      getOrFetch upstream cfg.ttl { resource := resource, limit := limit, sort := "hot" }
          forceRefresh st.cache = (.ok entry, c') →
      ∃ items,
        (getPosts upstream summarize completes cfg resource limit forceRefresh
          withEnrichment st).1 = .ok items ∧
        items.length = entry.items.length ∧
        ∀ (j : Nat) (hj : j < entry.items.length) (hj' : j < items.length),
          items.get ⟨j, hj'⟩ = entry.items.get ⟨j, hj⟩ ∨
          ∃ s, items.get ⟨j, hj'⟩ = attachSummary (entry.items.get ⟨j, hj⟩) s) := by
  have hl' : ¬(limit = 0 ∨ 25 < limit) := by omega
  constructor
  · intro err c' hfe
    simp [getPosts, hl, hl', hfe]
  · intro entry c' hfe
    cases withEnrichment with
    | false =>
        refine ⟨entry.items, by simp [getPosts, hl, hl', hfe], rfl, ?_⟩
        intro j hj hj'
        exact Or.inl rfl
    | true =>
        refine ⟨(enrichAll summarize completes entry.items cfg.maxConcurrency
          cfg.overallDeadline st.enrichment).1, by simp [getPosts, hl, hl', hfe], ?_, ?_⟩
        · exact enrichGo_length summarize _ entry.items 0 st.enrichment
        · intro j hj hj'
          have h := enrichGo_forall₂ summarize
            (completes cfg.maxConcurrency cfg.overallDeadline) entry.items 0 st.enrichment
          rw [List.forall₂_iff_get] at h
          have := h.2 j hj (by simpa [enrichAll] using hj')
          simpa [enrichAll, enrichedFrom] using this

/-- Witness for C8: with an in-range limit of 5, a failing upstream yields
exactly its error, and a fresh cache hit yields the full one-item list. -/
theorem getPosts_full_list_or_error_witness :
    ((getPosts (fun _ => .error .upstreamUnavailable) (fun _ _ => .error ())
        (fun _ _ _ => true) { ttl := 10, maxConcurrency := 2, overallDeadline := 100 }
        "golang" 5 false false
        { cache := { entries := [], upstreamCalls := 0, now := 0 },
          enrichment := { entries := [], summarizeCalls := 0, now := 0 } }).1
      = .error .upstreamUnavailable) ∧
    (∃ items,
      (getPosts demoUpstream (fun _ _ => .error ()) (fun _ _ _ => true)
        { ttl := 10, maxConcurrency := 2, overallDeadline := 100 }
        "Golang" 5 false false
        { cache := demoCacheFresh,
          enrichment := { entries := [], summarizeCalls := 0, now := 0 } }).1
      = .ok items ∧ items.length = demoEntry.items.length ∧
      ∀ (j : Nat) (hj : j < demoEntry.items.length) (hj' : j < items.length),
        items.get ⟨j, hj'⟩ = demoEntry.items.get ⟨j, hj⟩ ∨
        ∃ s, items.get ⟨j, hj'⟩ = attachSummary (demoEntry.items.get ⟨j, hj⟩) s) :=
  ⟨(getPosts_full_list_or_error (fun _ => .error .upstreamUnavailable) (fun _ _ => .error ())
      (fun _ _ _ => true) { ttl := 10, maxConcurrency := 2, overallDeadline := 100 }
      "golang" 5 false false
      { cache := { entries := [], upstreamCalls := 0, now := 0 },
        enrichment := { entries := [], summarizeCalls := 0, now := 0 } }
      (by decide)).1 .upstreamUnavailable
      { entries := [], upstreamCalls := 0 + 1, now := 0 } rfl,
   (getPosts_full_list_or_error demoUpstream (fun _ _ => .error ())
      (fun _ _ _ => true) { ttl := 10, maxConcurrency := 2, overallDeadline := 100 }
      "Golang" 5 false false
      { cache := demoCacheFresh,
        enrichment := { entries := [], summarizeCalls := 0, now := 0 } }
      (by decide)).2 demoEntry demoCacheFresh rfl⟩

/-- The window invariant of `reserveRun`: once real time has passed the
reset epoch no grant counts, and the count of pre-reset grants never
exceeds the remaining budget. -/
theorem reserveRun_bound (fullBudget T : Nat) :
    ∀ (reqs : List ReserveReq) (b : RateBudget) (t : Nat), b.resetAt = T →
      (T ≤ t → reserveRun fullBudget T reqs b t = 0) ∧
      reserveRun fullBudget T reqs b t ≤ b.remaining := by
  intro reqs
  induction reqs with
  | nil => intro b t hb; simp [reserveRun]
  | cons r rest ih =>
      intro b t hb
      by_cases h1 : 0 < b.remaining
      · have hrw : RateLimiter.reserve fullBudget r.maxWait (max r.arrival t) b =
            .ok (max r.arrival t, { b with remaining := b.remaining - 1 }) := by
          simp [RateLimiter.reserve, h1]
        obtain ⟨ih1, ih2⟩ := ih { b with remaining := b.remaining - 1 } (max r.arrival t) hb
        constructor
        · intro ht
          have hge : ¬ max r.arrival t < T := by omega
          simp [reserveRun, hrw, hge, ih1 (by omega)]
        · have ih2' : reserveRun fullBudget T rest
              { remaining := b.remaining - 1, resetAt := b.resetAt } (max r.arrival t)
              ≤ b.remaining - 1 := ih2
          by_cases h2 : max r.arrival t < T
          · simp only [reserveRun, hrw, if_pos h2]
            omega
          · simp only [reserveRun, hrw, if_neg h2]
            have h0 := ih1 (by omega)
            omega
      · by_cases h2 : b.resetAt ≤ max r.arrival t
        · have hrw : RateLimiter.reserve fullBudget r.maxWait (max r.arrival t) b =
              .ok (max r.arrival t, { b with remaining := fullBudget - 1 }) := by
            simp [RateLimiter.reserve, h1, h2]
          obtain ⟨ih1, ih2⟩ := ih { b with remaining := fullBudget - 1 } (max r.arrival t) hb
          have hge : ¬ max r.arrival t < T := by omega
          have h0 := ih1 (by omega)
          constructor
          · intro ht
            simp [reserveRun, hrw, hge, h0]
          · simp [reserveRun, hrw, hge, h0]
        · by_cases h3 : b.resetAt - max r.arrival t ≤ r.maxWait
          · have hrw : RateLimiter.reserve fullBudget r.maxWait (max r.arrival t) b =
                .ok (b.resetAt, { b with remaining := fullBudget - 1 }) := by
              simp [RateLimiter.reserve, h1, h2, h3]
            obtain ⟨ih1, ih2⟩ := ih { b with remaining := fullBudget - 1 } b.resetAt hb
            have hge : ¬ b.resetAt < T := by omega
            have h0 := ih1 (by omega)
            constructor
            · intro ht
              simp [reserveRun, hrw, hge, h0]
            · simp [reserveRun, hrw, hge, h0]
          · have hrw : RateLimiter.reserve fullBudget r.maxWait (max r.arrival t) b =
                .error .rateLimited := by
              simp [RateLimiter.reserve, h1, h2, h3]
            obtain ⟨ih1, ih2⟩ := ih b t hb
            constructor
            · intro ht
              simp [reserveRun, hrw, ih1 ht]
            · simp only [reserveRun, hrw]
              exact ih2

/-- C7: after `update(remaining, resetAt)`, no sequence of reserve calls is
granted more than `remaining` times before `resetAt`; with the budget
exhausted, `reserve` never grants before `resetAt` — it delays until
`resetAt`, or fails with RateLimited when the wait exceeds the configured
maximum. -/
theorem rateLimiter_budget_bound (fullBudget remaining resetAt : Nat)
    (b0 : RateBudget) (reqs : List ReserveReq) (t0 : Nat) :
    reserveRun fullBudget resetAt reqs (RateLimiter.update remaining resetAt b0) t0
      ≤ remaining ∧
    (∀ (maxWait now : Nat) (b : RateBudget) (g : Nat) (b' : RateBudget),
      b.remaining = 0 → now < b.resetAt →
      RateLimiter.reserve fullBudget maxWait now b = .ok (g, b') → b.resetAt ≤ g) ∧
    (∀ (maxWait now : Nat) (b : RateBudget),
      b.remaining = 0 → now < b.resetAt → maxWait < b.resetAt - now →
      RateLimiter.reserve fullBudget maxWait now b = .error .rateLimited) := by
  refine ⟨(reserveRun_bound fullBudget resetAt reqs
      (RateLimiter.update remaining resetAt b0) t0 rfl).2, ?_, ?_⟩
  · intro maxWait now b g b' hrem hnow hok
    have h2 : ¬ b.resetAt ≤ now := by omega
    by_cases h3 : b.resetAt - now ≤ maxWait
    · have : RateLimiter.reserve fullBudget maxWait now b =
          .ok (b.resetAt, { b with remaining := fullBudget - 1 }) := by
        simp [RateLimiter.reserve, hrem, h2, h3]
      rw [this] at hok
      cases hok
      omega
    · have : RateLimiter.reserve fullBudget maxWait now b = .error .rateLimited := by
        simp [RateLimiter.reserve, hrem, h2, h3]
      rw [this] at hok
      cases hok
  · intro maxWait now b hrem hnow hwait
    have h2 : ¬ b.resetAt ≤ now := by omega
    have h3 : ¬ b.resetAt - now ≤ maxWait := by omega
    simp [RateLimiter.reserve, hrem, h2, h3]

/-- Witness for C7: with a reported budget of 2 resetting at 100, three
back-to-back calls yield two grants before 100 and a RateLimited failure;
an exhausted budget at time 50 is delayed to 100 when the wait fits, and
rejected when it does not. -/
theorem rateLimiter_budget_bound_witness :
    (reserveRun 10 100 [⟨0, 0⟩, ⟨1, 0⟩, ⟨2, 0⟩]
        (RateLimiter.update 2 100 { remaining := 0, resetAt := 0 }) 0 ≤ 2) ∧
    ((100 : Nat) ≤ 100) ∧
    (RateLimiter.reserve 10 5 50 { remaining := 0, resetAt := 100 }
      = .error .rateLimited) :=
  have h := rateLimiter_budget_bound 10 2 100 { remaining := 0, resetAt := 0 }
    [⟨0, 0⟩, ⟨1, 0⟩, ⟨2, 0⟩] 0
  ⟨h.1,
   h.2.1 60 50 { remaining := 0, resetAt := 100 } 100
     { remaining := 10 - 1, resetAt := 100 } rfl (by decide) rfl,
   h.2.2 5 50 { remaining := 0, resetAt := 100 } rfl (by decide) (by decide)⟩

/-- C9: `truncateText(text, maxLength)` returns the text unchanged when it
is empty or no longer than `maxLength`, and otherwise the first `maxLength`
characters followed by an ellipsis, of total length `maxLength + 3`. -/
theorem truncateText_spec (text : List Char) (maxLength : Nat) :
    (text = [] ∨ text.length ≤ maxLength → truncateText text maxLength = text) ∧
    (text ≠ [] → maxLength < text.length →
      truncateText text maxLength = text.take maxLength ++ ['.', '.', '.'] ∧
      (truncateText text maxLength).length = maxLength + 3) := by
  constructor
  · intro h
    simp [truncateText, h]
  · intro h1 h2
    have hcond : ¬(text = [] ∨ text.length ≤ maxLength) := by
      push_neg
      exact ⟨h1, by omega⟩
    refine ⟨by simp [truncateText, hcond], ?_⟩
    simp [truncateText, hcond]
    omega

/-- Witness for C9: a short text is returned unchanged; a three-character
text truncated to 2 becomes its first two characters plus the ellipsis,
with length 5. -/
theorem truncateText_spec_witness :
    (truncateText ['a', 'b'] 5 = ['a', 'b']) ∧
    (truncateText ['a', 'b', 'c'] 2 = ['a', 'b', 'c'].take 2 ++ ['.', '.', '.'] ∧
      (truncateText ['a', 'b', 'c'] 2).length = 2 + 3) :=
  ⟨(truncateText_spec ['a', 'b'] 5).1 (Or.inr (by decide)),
   (truncateText_spec ['a', 'b', 'c'] 2).2 (by decide) (by decide)⟩

/-- C10 as stated is violated by the code: the DISMISS_TOAST action with no
toast id modifies a toast (sets its `open` to false) although its id
matches no id carried by the action. -/
theorem toastReducer_dismiss_all_counterexample :
    (toastReducer
        { toasts := [{ id := "a", title := none, description := none, isOpen := true }] }
        (.dismissToast none)).toasts
      ≠ [{ id := "a", title := none, description := none, isOpen := true }] ∧
    (toastReducer
        { toasts := [{ id := "a", title := none, description := none, isOpen := true }] }
        (.dismissToast none)).toasts
      = [{ id := "a", title := none, description := none, isOpen := false }] := by
  exact ⟨by decide, by decide⟩

/-- C10 (amended): every action keeps the toast list within `TOAST_LIMIT`;
ADD_TOAST places the new toast at the front; UPDATE_TOAST and DISMISS_TOAST
preserve length and order and, when the action carries an id, modify only
the toasts whose id matches it; DISMISS_TOAST without an id preserves
length and order and sets `open` to false on every toast. -/
theorem toastReducer_invariants (s : ToastState)
    (hs : s.toasts.length ≤ TOAST_LIMIT) :
    (∀ a, (toastReducer s a).toasts.length ≤ TOAST_LIMIT) ∧
    (∀ t, (toastReducer s (.addToast t)).toasts.head? = some t) ∧
    (∀ p i,
      (toastReducer s (.updateToast p i)).toasts.length = s.toasts.length ∧
      ∀ (j : Nat) (hj : j < s.toasts.length)
        (hj' : j < (toastReducer s (.updateToast p i)).toasts.length),
        ((s.toasts[j]).id ≠ i →
          (toastReducer s (.updateToast p i)).toasts[j] = s.toasts[j]) ∧
        ((s.toasts[j]).id = i →
          (toastReducer s (.updateToast p i)).toasts[j] = mergeToast (s.toasts[j]) p)) ∧
    (∀ tid,
      (toastReducer s (.dismissToast (some tid))).toasts.length = s.toasts.length ∧
      ∀ (j : Nat) (hj : j < s.toasts.length)
        (hj' : j < (toastReducer s (.dismissToast (some tid))).toasts.length),
        ((s.toasts[j]).id ≠ tid →
          (toastReducer s (.dismissToast (some tid))).toasts[j] = s.toasts[j]) ∧
        ((s.toasts[j]).id = tid →
          (toastReducer s (.dismissToast (some tid))).toasts[j]
            = { s.toasts[j] with isOpen := false })) ∧
    ((toastReducer s (.dismissToast none)).toasts.length = s.toasts.length ∧
      ∀ (j : Nat) (hj : j < s.toasts.length)
        (hj' : j < (toastReducer s (.dismissToast none)).toasts.length),
        (toastReducer s (.dismissToast none)).toasts[j]
          = { s.toasts[j] with isOpen := false }) := by
  refine ⟨?_, ?_, ?_, ?_, ?_, ?_⟩
  · intro a
    cases a with
    | addToast t =>
        simp only [toastReducer, TOAST_LIMIT, List.length_take]
        omega
    | updateToast p i => simpa [toastReducer] using hs
    | dismissToast tid => cases tid <;> simpa [toastReducer] using hs
    | removeToast tid =>
        cases tid with
        | none => simp [toastReducer]
        | some tid =>
            exact le_trans (by simpa [toastReducer] using
              List.length_filter_le _ s.toasts) hs
  · intro t
    simp [toastReducer, TOAST_LIMIT]
  · intro p i
    refine ⟨by simp [toastReducer], fun j hj hj' => ⟨fun hne => ?_, fun heq => ?_⟩⟩
    · simp [toastReducer, List.getElem_map, hne]
    · simp [toastReducer, List.getElem_map, heq]
  · intro tid
    refine ⟨by simp [toastReducer], fun j hj hj' => ⟨fun hne => ?_, fun heq => ?_⟩⟩
    · simp [toastReducer, List.getElem_map, hne]
    · simp [toastReducer, List.getElem_map, heq]
  · simp [toastReducer]
  · intro j hj hj'
    simp [toastReducer, List.getElem_map]

/-- Witness for C10 (amended): on a one-toast list, ADD_TOAST puts the new
toast at the front and dismiss-all preserves the length. -/
theorem toastReducer_invariants_witness :
    ((toastReducer { toasts := [{ id := "a", title := none, description := none, isOpen := true }] }
        (.addToast { id := "b", title := none, description := none, isOpen := true })).toasts.head?
      = some { id := "b", title := none, description := none, isOpen := true }) ∧
    ((toastReducer { toasts := [{ id := "a", title := none, description := none, isOpen := true }] }
        (.dismissToast none)).toasts.length = 1) :=
  have h := toastReducer_invariants
    { toasts := [{ id := "a", title := none, description := none, isOpen := true }] }
    (by decide)
  ⟨h.2.1 { id := "b", title := none, description := none, isOpen := true },
   by simpa using h.2.2.2.2.1⟩

end RedditFetcher
